import Mathlib

/-!
Shallow embedding of the k8rs pod-event operator (src/main.rs).

The program watches Kubernetes `Event` resources in one namespace and turns
selected Pod lifecycle events into two labelled Prometheus counters
(`created_pods`, `deleted_pods`).  The embedding models:

* the fields of `k8s_openapi::api::core::v1::Event` that the program reads
  (`involved_object.kind`, `involved_object.uid`, `reason`, `first_timestamp`,
  and the metadata name used only for logging);
* the watcher notification stream `Result<watcher::Event<Event>, watcher::Error>`;
* the body of the reconciliation loop (main.rs lines 90-153) as a pure step
  function on a state holding the two counter families and the log;
* the label extractor `extract_label_values_from_event` (main.rs lines 177-189);
* the startup sequence of `main` (main.rs lines 40-57).
-/

namespace K8rs

/-- ObjectReference fields read by the program: `involved_object.kind` and
`involved_object.uid`, both optional strings in k8s_openapi. -/
structure ObjectReference where
  kind : Option String
  uid : Option String
  deriving DecidableEq, Repr

/-- Broken-down UTC instant modelling `k8s_openapi::apimachinery::...::Time`,
which wraps a `chrono::DateTime<Utc>`.  Only the components that
`to_rfc3339_opts(SecondsFormat::Millis, false)` prints are kept. -/
structure UtcTime where
  year : Nat
  month : Nat
  day : Nat
  hour : Nat
  minute : Nat
  second : Nat
  millis : Nat
  deriving DecidableEq, Repr

/-- Fields of `k8s_openapi::api::core::v1::Event` that main.rs reads.
`metadata_name` / `metadata_generate_name` feed `ResourceExt::name_any`,
used only in log messages. -/
structure Event where
  involved_object : ObjectReference
  reason : Option String
  first_timestamp : Option UtcTime
  metadata_name : Option String
  metadata_generate_name : Option String
  deriving DecidableEq, Repr

/-- The `EventLabels` struct of main.rs lines 28-31. -/
structure EventLabels where
  time : String
  object_id : String
  deriving DecidableEq, Repr

/-- Left-pad the decimal representation of `n` with zeros to width `w`. -/
def natPad (w : Nat) (n : Nat) : String :=
  let s := toString n
  String.mk (List.replicate (w - s.length) '0') ++ s

/-- Chrono `DateTime<Utc>::to_rfc3339_opts(SecondsFormat::Millis, false)`:
RFC 3339 with exactly millisecond precision; `use_z = false`, so the zero UTC
offset is printed as `+00:00`, not `Z`. -/
def UtcTime.to_rfc3339_millis (t : UtcTime) : String :=
  natPad 4 t.year ++ "-" ++ natPad 2 t.month ++ "-" ++ natPad 2 t.day ++ "T" ++
    natPad 2 t.hour ++ ":" ++ natPad 2 t.minute ++ ":" ++ natPad 2 t.second ++ "." ++
    natPad 3 t.millis ++ "+00:00"

/-- Kube `ResourceExt::name_any`: the metadata name, falling back to the
generate-name, else the empty string. -/
def name_any (e : Event) : String :=
  ((e.metadata_name).or e.metadata_generate_name).getD ""

/-- main.rs lines 177-189: derive the two label values from an event.
`first_timestamp` formats via `to_rfc3339_opts(SecondsFormat::Millis, false)`
(empty string when absent); `object_id` is `involved_object.uid` (empty string
when absent). -/
def extract_label_values_from_event (ev : Event) : EventLabels :=
  let time := match ev.first_timestamp with
    | some date => date.to_rfc3339_millis
    | none => ""
  let object_id := match ev.involved_object.uid with
    | some val => val
    | none => ""
  { time := time, object_id := object_id }

/-- The variants of `kube::runtime::watcher::Event<Event>`. -/
inductive WatcherEvent where
  | Init
  | InitApply (e : Event)
  | InitDone
  | Apply (e : Event)
  | Delete (e : Event)
  deriving DecidableEq, Repr

/-- One item of the watch stream: `Result<watcher::Event<Event>, watcher::Error>`.
The error cause is abstracted to its rendered debug string. -/
inductive Notif where
  | ok (ev : WatcherEvent)
  | err (cause : String)
  deriving DecidableEq, Repr

/-- State of the reconciliation loop as observable effects: the value of each
label partition of the `created_pods` and `deleted_pods` counters, plus the
emitted log lines in order. -/
structure LoopState where
  created : EventLabels → Nat
  deleted : EventLabels → Nat
  log : List String

/-- Metrics-registry increment: `counter!(name, labels).increment(1)` adds one
to the partition of the counter keyed by the given label set. -/
def bump (f : EventLabels → Nat) (l : EventLabels) : EventLabels → Nat :=
  fun x => if x = l then f x + 1 else f x

/-- main.rs lines 93-151: the body of the reconciliation loop for one
notification.  The `Apply`/`Delete` or-pattern is guarded by
`involved_object.kind.is_some_and(|kind| kind == "Pod")`; inside, an
`if let Some(ref reason)` wraps a match on the reason string.  A guarded
arm whose guard fails falls through to the `Ok(_) => {}` catch-all, as in
Rust.  `info!`/`error!` calls append their formatted message to the log. -/
def step (s : LoopState) (n : Notif) : LoopState :=
  match n with
  | .ok (.Apply event) | .ok (.Delete event) =>
    if (event.involved_object.kind.any fun kind => kind == "Pod") then
      match event.reason with
      | some reason =>
        match reason with
        | "Pulled" => { s with log := s.log ++ ["image for Pod " ++ name_any event ++ " pulled"] }
        | "Created" =>
          let labels := extract_label_values_from_event event
          { s with created := bump s.created labels,
                   log := s.log ++ ["Pod " ++ name_any event ++ " created"] }
        | "Scheduled" => { s with log := s.log ++ ["Pod " ++ name_any event ++ " scheduled"] }
        | "Started" => { s with log := s.log ++ ["Pod " ++ name_any event ++ " allocated and started"] }
        | "Updated" => { s with log := s.log ++ ["Pod " ++ name_any event ++ " updated"] }
        | "Killing" =>
          let labels := extract_label_values_from_event event
          { s with deleted := bump s.deleted labels,
                   log := s.log ++ ["Killing Pod " ++ name_any event] }
        | _ => s
      | none => s
    else
      s
  | .ok .Init => { s with log := s.log ++ ["Starting the watch stream..."] }
  | .ok .InitDone => { s with log := s.log ++ ["Watch stream up and running!"] }
  | .ok (.InitApply _) => s
  | .err cause => { s with log := s.log ++ ["Error on receiving update: " ++ cause] }

/-- Run the reconciliation loop over a finite stream of notifications. -/
def run (s : LoopState) (ns : List Notif) : LoopState :=
  ns.foldl step s

/-- State at process start: every counter partition is zero, no log lines. -/
def initState : LoopState :=
  { created := fun _ => 0, deleted := fun _ => 0, log := [] }

/-- The classification outcome of one notification, per the spec's
`ClassifiedAction`: the counter-relevant reading of the loop's match. -/
inductive Action where
  | ignore
  | created
  | deleted
  | informational (reason : String)
  deriving DecidableEq, Repr

/-- The classifier: the same dispatch as `step` (kind guard, then exact match
on the reason string), returning the recognized action instead of performing
the effect. -/
def classify (n : Notif) : Action :=
  match n with
  | .ok (.Apply event) | .ok (.Delete event) =>
    if (event.involved_object.kind.any fun kind => kind == "Pod") then
      match event.reason with
      | some reason =>
        match reason with
        | "Pulled" => .informational "Pulled"
        | "Created" => .created
        | "Scheduled" => .informational "Scheduled"
        | "Started" => .informational "Started"
        | "Updated" => .informational "Updated"
        | "Killing" => .deleted
        | _ => .ignore
      | none => .ignore
    else
      .ignore
  | _ => .ignore

/-- The event payload the classifier considers: only `Apply`/`Delete` carry one. -/
def eventOf : Notif → Option Event
  | .ok (.Apply e) | .ok (.Delete e) => some e
  | _ => none

/-- Decidable test: notification `n` is classified to action `a` and its
labels extract to `l`. -/
def classifiedAs (n : Notif) (a : Action) (l : EventLabels) : Bool :=
  decide (classify n = a ∧ (eventOf n).map extract_label_values_from_event = some l)

/-- Outcome of the startup sequence of `main`: either the process returns
`Err(cause)` (a non-zero process exit), or startup completes and the two
long-running tasks are spawned. -/
inductive StartupOutcome where
  | fatalExit (cause : String)
  | started
  deriving DecidableEq, Repr

/-- main.rs lines 40-57: bind the metrics listener, then build the cluster
client; on either failure, log and `return Err(err)` (process exits non-zero).
Only when both succeed does control reach `initialize_counters()` (line 57)
and the task spawns that can increment counters.  The second component
records whether `initialize_counters()` ran. -/
def mainStartup (bindResult : Except String Unit) (clientResult : Except String Unit) :
    StartupOutcome × Bool :=
  match bindResult with
  | .error err => (.fatalExit err, false)
  | .ok _ =>
    match clientResult with
    | .error err => (.fatalExit err, false)
    | .ok _ => (.started, true)

/-- The instant 2024-01-02T03:04:05.123 UTC. -/
def ts0 : UtcTime := ⟨2024, 1, 2, 3, 4, 5, 123⟩

/-- Sample event: a Pod "Created" event with timestamp `ts0` and uid "abc-123". -/
def evCreated : Event :=
  { involved_object := { kind := some "Pod", uid := some "abc-123" },
    reason := some "Created",
    first_timestamp := some ts0,
    metadata_name := some "mypod",
    metadata_generate_name := none }

/-- Sample event: a Pod "Killing" event with no timestamp and no uid. -/
def evKilling : Event :=
  { involved_object := { kind := some "Pod", uid := none },
    reason := some "Killing",
    first_timestamp := none,
    metadata_name := some "mypod",
    metadata_generate_name := none }

/-- Sample event: a "Created" event about a Node, not a Pod. -/
def evNode : Event :=
  { involved_object := { kind := some "Node", uid := some "n-1" },
    reason := some "Created",
    first_timestamp := some ts0,
    metadata_name := some "node-1",
    metadata_generate_name := none }

/-- Sample event: a Pod "Created" event with timestamp and uid both absent. -/
def evNoLabels : Event :=
  { involved_object := { kind := some "Pod", uid := none },
    reason := some "Created",
    first_timestamp := none,
    metadata_name := none,
    metadata_generate_name := none }

/-- Sample event: every optional field absent. -/
def evBare : Event :=
  { involved_object := { kind := none, uid := none },
    reason := none,
    first_timestamp := none,
    metadata_name := none,
    metadata_generate_name := none }

/-- Sample event: same classification-relevant fields as `evCreated`, but a
different metadata name. -/
def evCreatedOtherName : Event :=
  { involved_object := { kind := some "Pod", uid := some "abc-123" },
    reason := some "Created",
    first_timestamp := some ts0,
    metadata_name := some "otherpod",
    metadata_generate_name := none }

end K8rs

namespace K8rs

theorem step_apply_eq_step_delete (s : LoopState) (e : Event) :
    step s (.ok (.Apply e)) = step s (.ok (.Delete e)) := rfl

theorem classify_apply_eq_classify_delete (e : Event) :
    classify (.ok (.Apply e)) = classify (.ok (.Delete e)) := rfl

theorem step_created_eq (s : LoopState) (n : Notif) (l : EventLabels) :
    (step s n).created l = s.created l + (if classifiedAs n .created l then 1 else 0) := by
  cases n with
  | err c => simp [step, classifiedAs, classify, eventOf]
  | ok w =>
    cases w with
    | Init => simp [step, classifiedAs, classify, eventOf]
    | InitDone => simp [step, classifiedAs, classify, eventOf]
    | InitApply e => simp [step, classifiedAs, classify, eventOf]
    | Apply e =>
      simp only [step, classifiedAs, classify, eventOf]
      split
      · cases hr : e.reason with
        | none => simp [hr]
        | some r =>
          simp only [hr]
          split <;> split <;>
            simp_all [bump, @eq_comm EventLabels]
      · simp
    | Delete e =>
      simp only [step, classifiedAs, classify, eventOf]
      split
      · cases hr : e.reason with
        | none => simp [hr]
        | some r =>
          simp only [hr]
          split <;> split <;>
            simp_all [bump, @eq_comm EventLabels]
      · simp

theorem step_deleted_eq (s : LoopState) (n : Notif) (l : EventLabels) :
    (step s n).deleted l = s.deleted l + (if classifiedAs n .deleted l then 1 else 0) := by
  cases n with
  | err c => simp [step, classifiedAs, classify, eventOf]
  | ok w =>
    cases w with
    | Init => simp [step, classifiedAs, classify, eventOf]
    | InitDone => simp [step, classifiedAs, classify, eventOf]
    | InitApply e => simp [step, classifiedAs, classify, eventOf]
    | Apply e =>
      simp only [step, classifiedAs, classify, eventOf]
      split
      · cases hr : e.reason with
        | none => simp [hr]
        | some r =>
          simp only [hr]
          split <;> split <;>
            simp_all [bump, @eq_comm EventLabels]
      · simp
    | Delete e =>
      simp only [step, classifiedAs, classify, eventOf]
      split
      · cases hr : e.reason with
        | none => simp [hr]
        | some r =>
          simp only [hr]
          split <;> split <;>
            simp_all [bump, @eq_comm EventLabels]
      · simp

theorem run_created_count (ns : List Notif) (s : LoopState) (l : EventLabels) :
    (run s ns).created l = s.created l + ns.countP (fun n => classifiedAs n .created l) := by
  induction ns generalizing s with
  | nil => simp [run]
  | cons n ns ih =>
    have h1 : run s (n :: ns) = run (step s n) ns := rfl
    rw [h1, ih, step_created_eq, List.countP_cons]
    by_cases hc : classifiedAs n .created l <;> simp [hc] <;> omega

theorem run_deleted_count (ns : List Notif) (s : LoopState) (l : EventLabels) :
    (run s ns).deleted l = s.deleted l + ns.countP (fun n => classifiedAs n .deleted l) := by
  induction ns generalizing s with
  | nil => simp [run]
  | cons n ns ih =>
    have h1 : run s (n :: ns) = run (step s n) ns := rfl
    rw [h1, ih, step_deleted_eq, List.countP_cons]
    by_cases hc : classifiedAs n .deleted l <;> simp [hc] <;> omega

theorem run_initApply_id (es : List Event) (s : LoopState) :
    run s (es.map fun e => Notif.ok (.InitApply e)) = s := by
  induction es generalizing s with
  | nil => rfl
  | cons e es ih =>
    have h1 : run s ((e :: es).map fun e2 => Notif.ok (.InitApply e2)) =
        run (step s (.ok (.InitApply e))) (es.map fun e2 => Notif.ok (.InitApply e2)) := rfl
    rw [h1]
    have h2 : step s (.ok (.InitApply e)) = s := rfl
    rw [h2, ih]

theorem classify_apply_fields (e1 e2 : Event)
    (hk : e1.involved_object.kind = e2.involved_object.kind)
    (hr : e1.reason = e2.reason) :
    classify (.ok (.Apply e1)) = classify (.ok (.Apply e2)) := by
  simp only [classify]
  rw [hk, hr]

theorem extract_fields (e1 e2 : Event)
    (ht : e1.first_timestamp = e2.first_timestamp)
    (hu : e1.involved_object.uid = e2.involved_object.uid) :
    extract_label_values_from_event e1 = extract_label_values_from_event e2 := by
  simp only [extract_label_values_from_event]
  rw [ht, hu]

theorem classifiedAs_apply_fields (e1 e2 : Event)
    (hk : e1.involved_object.kind = e2.involved_object.kind)
    (hr : e1.reason = e2.reason)
    (ht : e1.first_timestamp = e2.first_timestamp)
    (hu : e1.involved_object.uid = e2.involved_object.uid)
    (a : Action) (l : EventLabels) :
    classifiedAs (.ok (.Apply e1)) a l = classifiedAs (.ok (.Apply e2)) a l := by
  simp only [classifiedAs, eventOf]
  rw [decide_eq_decide]
  rw [classify_apply_fields e1 e2 hk hr]
  simp only [Option.map_some']
  rw [extract_fields e1 e2 ht hu]

end K8rs

namespace K8rs

/-- C1: For every finite sequence of watch notifications processed by the
reconciliation loop, the final value of each counter partition (starting from
the zero state) equals exactly the number of notifications in the sequence
classified to that counter's action with that label set; counters never
decrease across the sequence; and processing the same notification twice
increments the counter twice (no deduplication). -/
theorem counter_exactness_monotone_nodedup :
    (∀ (ns : List Notif) (l : EventLabels),
        (run initState ns).created l = ns.countP (fun n => classifiedAs n .created l)
      ∧ (run initState ns).deleted l = ns.countP (fun n => classifiedAs n .deleted l))
  ∧ (∀ (s : LoopState) (ns : List Notif) (l : EventLabels),
        s.created l ≤ (run s ns).created l ∧ s.deleted l ≤ (run s ns).deleted l)
  ∧ (∀ (s : LoopState) (n : Notif) (l : EventLabels),
        (run s [n, n]).created l = s.created l + 2 * (if classifiedAs n .created l then 1 else 0)
      ∧ (run s [n, n]).deleted l = s.deleted l + 2 * (if classifiedAs n .deleted l then 1 else 0)) := by
  refine ⟨fun ns l => ⟨?_, ?_⟩, fun s ns l => ⟨?_, ?_⟩, fun s n l => ⟨?_, ?_⟩⟩
  · rw [run_created_count]; simp [initState]
  · rw [run_deleted_count]; simp [initState]
  · rw [run_created_count]; omega
  · rw [run_deleted_count]; omega
  · have h2 : run s [n, n] = step (step s n) n := rfl
    cases hb : classifiedAs n .created l <;>
      simp [h2, step_created_eq, hb]
  · have h2 : run s [n, n] = step (step s n) n := rfl
    cases hb : classifiedAs n .deleted l <;>
      simp [h2, step_deleted_eq, hb]

/-- C2: For every Apply or Delete notification whose event has
`involved_object.kind = "Pod"`, classification dispatches on an exact,
case-sensitive match of the reason field: "Created" yields `created` and
increments the created-pods counter at the extracted labels; "Killing" yields
`deleted` and increments the deleted-pods counter; "Pulled", "Scheduled",
"Started" and "Updated" yield informational actions (one log line, no counter
change); any other or absent reason yields `ignore` (no effect at all). -/
theorem reason_dispatch (e : Event)
    (hkind : e.involved_object.kind = some "Pod") :
    ∀ n ∈ [Notif.ok (.Apply e), Notif.ok (.Delete e)],
      (e.reason = some "Created" →
        classify n = .created ∧
        ∀ s : LoopState,
          (step s n).created = bump s.created (extract_label_values_from_event e) ∧
          (step s n).deleted = s.deleted)
    ∧ (e.reason = some "Killing" →
        classify n = .deleted ∧
        ∀ s : LoopState,
          (step s n).deleted = bump s.deleted (extract_label_values_from_event e) ∧
          (step s n).created = s.created)
    ∧ (∀ r, r ∈ ["Pulled", "Scheduled", "Started", "Updated"] → e.reason = some r →
        classify n = .informational r ∧
        ∀ s : LoopState,
          (step s n).created = s.created ∧ (step s n).deleted = s.deleted ∧
          (step s n).log.length = s.log.length + 1)
    ∧ (∀ r, e.reason = some r →
        r ∉ ["Pulled", "Created", "Scheduled", "Started", "Updated", "Killing"] →
        classify n = .ignore ∧ ∀ s : LoopState, step s n = s)
    ∧ (e.reason = none → classify n = .ignore ∧ ∀ s : LoopState, step s n = s) := by
  intro n hn
  rcases List.mem_pair.mp hn with rfl | rfl <;>
  · refine ⟨fun hr => ?_, fun hr => ?_, fun r hmem hr => ?_, fun r hr hnot => ?_, fun hr => ?_⟩
    · exact ⟨by simp [classify, hkind, hr],
        fun s => ⟨by simp [step, hkind, hr], by simp [step, hkind, hr]⟩⟩
    · exact ⟨by simp [classify, hkind, hr],
        fun s => ⟨by simp [step, hkind, hr], by simp [step, hkind, hr]⟩⟩
    · have hmem2 : r = "Pulled" ∨ r = "Scheduled" ∨ r = "Started" ∨ r = "Updated" := by
        simpa using hmem
      rcases hmem2 with rfl | rfl | rfl | rfl <;>
        exact ⟨by simp [classify, hkind, hr],
          fun s => ⟨by simp [step, hkind, hr], by simp [step, hkind, hr],
            by simp [step, hkind, hr]⟩⟩
    · constructor
      · simp only [classify, hkind, hr]
        split <;> simp_all
      · intro s
        simp only [step, hkind, hr]
        split <;> simp_all
    · exact ⟨by simp [classify, hkind, hr], fun s => by simp [step, hkind, hr]⟩

/-- C3: For every Apply or Delete notification whose event's
`involved_object.kind` is not the literal string "Pod" (including when kind
is absent), classification is `ignore` and the loop state is unchanged,
regardless of the reason field. -/
theorem kind_filter (e : Event)
    (hk : e.involved_object.kind ≠ some "Pod") :
    ∀ n ∈ [Notif.ok (.Apply e), Notif.ok (.Delete e)],
      classify n = .ignore ∧ ∀ s : LoopState, step s n = s := by
  have hg : (e.involved_object.kind.any fun kind => kind == "Pod") = false := by
    cases hko : e.involved_object.kind with
    | none => simp [Option.any]
    | some k =>
      simp only [Option.any]
      simp_all
  intro n hn
  rcases List.mem_pair.mp hn with rfl | rfl <;>
    exact ⟨by simp [classify, hg], fun s => by simp [step, hg]⟩

/-- C4 (counterexample): the label extractor does not render the sample
timestamp with a trailing `Z`: the code calls
`to_rfc3339_opts(SecondsFormat::Millis, false)`, and `use_z = false` prints
the UTC offset as `+00:00`. -/
theorem label_extraction_claim_false :
    extract_label_values_from_event evCreated ≠
      { time := "2024-01-02T03:04:05.123Z", object_id := "abc-123" } := by
  decide

/-- C4 (amended): the label extractor is a total function on events; for an
event with `first_timestamp = 2024-01-02T03:04:05.123Z` and
`involved_object.uid = "abc-123"` it yields
`time = "2024-01-02T03:04:05.123+00:00"` (RFC 3339, millisecond precision,
UTC offset rendered as `+00:00` because `use_z` is false) and
`object_id = "abc-123"`; for an event with both fields absent it yields
`time = ""` and `object_id = ""`. -/
theorem label_extraction (e : Event) :
    (e.first_timestamp = some ts0 → e.involved_object.uid = some "abc-123" →
      extract_label_values_from_event e =
        { time := "2024-01-02T03:04:05.123+00:00", object_id := "abc-123" })
  ∧ (e.first_timestamp = none → e.involved_object.uid = none →
      extract_label_values_from_event e = { time := "", object_id := "" }) := by
  constructor <;> intro ht hu <;>
    simp only [extract_label_values_from_event, ht, hu]
  rw [show ts0.to_rfc3339_millis = "2024-01-02T03:04:05.123+00:00" from by decide]

theorem label_extraction_witness :
    (evCreated.first_timestamp = some ts0 ∧ evCreated.involved_object.uid = some "abc-123" ∧
      extract_label_values_from_event evCreated =
        { time := "2024-01-02T03:04:05.123+00:00", object_id := "abc-123" })
  ∧ (evBare.first_timestamp = none ∧ evBare.involved_object.uid = none ∧
      extract_label_values_from_event evBare = { time := "", object_id := "" }) :=
  ⟨⟨rfl, rfl, (label_extraction evCreated).1 rfl rfl⟩,
   ⟨rfl, rfl, (label_extraction evBare).2 rfl rfl⟩⟩

/-- C5: For every event payload, processing `Apply(e)` has exactly the same
effect on the loop state as processing `Delete(e)`, and both classify
identically: the or-pattern treats the two variants alike and dispatch is
purely on the reason string. -/
theorem apply_delete_equivalent (s : LoopState) (e : Event) :
    step s (.ok (.Apply e)) = step s (.ok (.Delete e)) ∧
    classify (.ok (.Apply e)) = classify (.ok (.Delete e)) :=
  ⟨rfl, rfl⟩

/-- C6: For every `Error(cause)` notification, the loop logs the cause,
leaves both counters unchanged, and continues with the remaining
notifications instead of terminating. -/
theorem error_notification (s : LoopState) (cause : String) (rest : List Notif) :
    (step s (.err cause)).log = s.log ++ ["Error on receiving update: " ++ cause]
  ∧ (step s (.err cause)).created = s.created
  ∧ (step s (.err cause)).deleted = s.deleted
  ∧ run s (.err cause :: rest) = run (step s (.err cause)) rest :=
  ⟨rfl, rfl, rfl, rfl⟩

/-- C7: If binding the metrics listener fails, or establishing the upstream
client fails, `main` returns the error (non-zero process exit) and
`initialize_counters` never runs; when both succeed, startup completes and
the counters are registered.  These are the only startup outcomes. -/
theorem startup_fatal_conditions :
    (∀ (cause : String) (clientResult : Except String Unit),
        mainStartup (.error cause) clientResult = (.fatalExit cause, false))
  ∧ (∀ cause : String,
        mainStartup (.ok ()) (.error cause) = (.fatalExit cause, false))
  ∧ mainStartup (.ok ()) (.ok ()) = (.started, true) :=
  ⟨fun _ _ => rfl, fun _ => rfl, rfl⟩

/-- C8: The loop silently discards an `InitApply` notification — no counter
change and no log line — and therefore the state re-delivered inside an
`Init` .. `InitDone` resync window leaves every counter partition exactly as
it was. -/
theorem initApply_discarded (s : LoopState) (e : Event) (es : List Event) :
    step s (.ok (.InitApply e)) = s
  ∧ (run s (.ok .Init :: (es.map fun e2 => Notif.ok (.InitApply e2)) ++ [.ok .InitDone])).created
      = s.created
  ∧ (run s (.ok .Init :: (es.map fun e2 => Notif.ok (.InitApply e2)) ++ [.ok .InitDone])).deleted
      = s.deleted := by
  have h1 : run s (.ok .Init :: (es.map fun e2 => Notif.ok (.InitApply e2)) ++ [.ok .InitDone])
      = run (run (step s (.ok .Init)) (es.map fun e2 => Notif.ok (.InitApply e2))) [.ok .InitDone] := by
    simp [run, List.foldl_append]
  refine ⟨rfl, ?_, ?_⟩ <;> rw [h1, run_initApply_id] <;> rfl

/-- C9: Counter effects depend only on the event's `involved_object.kind`,
`reason`, `first_timestamp` and `involved_object.uid`: two Apply (or Delete)
notifications whose events agree on those four fields produce identical
counter families, whatever their other fields. -/
theorem counter_effects_four_fields (s : LoopState) (e1 e2 : Event)
    (hk : e1.involved_object.kind = e2.involved_object.kind)
    (hr : e1.reason = e2.reason)
    (ht : e1.first_timestamp = e2.first_timestamp)
    (hu : e1.involved_object.uid = e2.involved_object.uid) :
    (step s (.ok (.Apply e1))).created = (step s (.ok (.Apply e2))).created
  ∧ (step s (.ok (.Apply e1))).deleted = (step s (.ok (.Apply e2))).deleted
  ∧ (step s (.ok (.Delete e1))).created = (step s (.ok (.Delete e2))).created
  ∧ (step s (.ok (.Delete e1))).deleted = (step s (.ok (.Delete e2))).deleted := by
  have hc : (step s (.ok (.Apply e1))).created = (step s (.ok (.Apply e2))).created := by
    funext l
    rw [step_created_eq, step_created_eq,
      classifiedAs_apply_fields e1 e2 hk hr ht hu .created l]
  have hd : (step s (.ok (.Apply e1))).deleted = (step s (.ok (.Apply e2))).deleted := by
    funext l
    rw [step_deleted_eq, step_deleted_eq,
      classifiedAs_apply_fields e1 e2 hk hr ht hu .deleted l]
  refine ⟨hc, hd, ?_, ?_⟩
  · rw [← step_apply_eq_step_delete, ← step_apply_eq_step_delete]; exact hc
  · rw [← step_apply_eq_step_delete, ← step_apply_eq_step_delete]; exact hd

theorem counter_effects_four_fields_witness :
    evCreated.involved_object.kind = evCreatedOtherName.involved_object.kind
  ∧ evCreated.reason = evCreatedOtherName.reason
  ∧ evCreated.first_timestamp = evCreatedOtherName.first_timestamp
  ∧ evCreated.involved_object.uid = evCreatedOtherName.involved_object.uid
  ∧ evCreated ≠ evCreatedOtherName
  ∧ (step initState (.ok (.Apply evCreated))).created
      = (step initState (.ok (.Apply evCreatedOtherName))).created :=
  ⟨rfl, rfl, rfl, rfl, by decide,
    (counter_effects_four_fields initState evCreated evCreatedOtherName rfl rfl rfl rfl).1⟩

/-- C10: For every Apply or Delete notification with
`involved_object.kind = "Pod"` and reason "Created" or "Killing", the
increment happens even when `first_timestamp` and `involved_object.uid` are
both absent: it targets the partition with empty-string label values rather
than being skipped. -/
theorem empty_labels_counted (s : LoopState) (e : Event)
    (hkind : e.involved_object.kind = some "Pod")
    (ht : e.first_timestamp = none)
    (hu : e.involved_object.uid = none) :
    ∀ n ∈ [Notif.ok (.Apply e), Notif.ok (.Delete e)],
      (e.reason = some "Created" →
        (step s n).created { time := "", object_id := "" }
            = s.created { time := "", object_id := "" } + 1
        ∧ (step s n).deleted { time := "", object_id := "" }
            = s.deleted { time := "", object_id := "" })
    ∧ (e.reason = some "Killing" →
        (step s n).deleted { time := "", object_id := "" }
            = s.deleted { time := "", object_id := "" } + 1
        ∧ (step s n).created { time := "", object_id := "" }
            = s.created { time := "", object_id := "" }) := by
  have he : extract_label_values_from_event e = { time := "", object_id := "" } := by
    simp [extract_label_values_from_event, ht, hu]
  intro n hn
  rcases List.mem_pair.mp hn with rfl | rfl <;>
    exact ⟨fun hr => ⟨by simp [step, hkind, hr, he, bump], by simp [step, hkind, hr]⟩,
      fun hr => ⟨by simp [step, hkind, hr, he, bump], by simp [step, hkind, hr]⟩⟩

theorem empty_labels_counted_witness :
    evNoLabels.involved_object.kind = some "Pod"
  ∧ evNoLabels.first_timestamp = none
  ∧ evNoLabels.involved_object.uid = none
  ∧ evNoLabels.reason = some "Created"
  ∧ (step initState (.ok (.Apply evNoLabels))).created { time := "", object_id := "" }
      = initState.created { time := "", object_id := "" } + 1 :=
  ⟨rfl, rfl, rfl, rfl,
    (((empty_labels_counted initState evNoLabels rfl rfl rfl)
      (.ok (.Apply evNoLabels)) (by simp)).1 rfl).1⟩

theorem reason_dispatch_witness :
    evCreated.involved_object.kind = some "Pod"
  ∧ evCreated.reason = some "Created"
  ∧ classify (.ok (.Apply evCreated)) = .created :=
  ⟨rfl, rfl,
    (((reason_dispatch evCreated rfl) (.ok (.Apply evCreated)) (by simp)).1 rfl).1⟩

theorem kind_filter_witness :
    evNode.involved_object.kind ≠ some "Pod"
  ∧ classify (.ok (.Apply evNode)) = .ignore
  ∧ step initState (.ok (.Apply evNode)) = initState :=
  ⟨by decide,
    ((kind_filter evNode (by decide)) (.ok (.Apply evNode)) (by simp)).1,
    ((kind_filter evNode (by decide)) (.ok (.Apply evNode)) (by simp)).2 initState⟩

end K8rs
